import Mathlib

/-!
Verification of the per-chain synchronization engine (`src/ssss/src/sync.rs`).

The Rust source is shallowly embedded: pure data types become structures,
the per-event dispatch of `sync_chain`'s `for_each` closure becomes the
function `handleEvent`, the stream consumption becomes a fold over a list
of events, and the external collaborators (brotli decompression, the
identity's derived cipher, the store) are abstract parameters carried in a
context record.  Machine integers (`u64`) are modelled as `Nat`; no
arithmetic in the embedded fragment can overflow-wrap observably, since the
source only moves block numbers and indices around without arithmetic.
-/

namespace Escrin

/-- Raw byte strings (`Vec<u8>` / fixed byte arrays) as lists of naturals. -/
abbrev Bytes := List Nat

/-- `ChainId` (a `u64` network identifier). -/
abbrev ChainId := Nat

/-- An on-chain address (`H160`), opaque here. -/
abbrev Address := Nat

/-- A logical identity id (`IdentityId`), opaque here. -/
abbrev IdentityId := Nat

/-- `EventIndex`: the position of an event within a chain; the source reads
its `block` field for checkpointing and passes the whole index to
`update_verifier`. -/
structure EventIndex where
  block : Nat
  deriving DecidableEq, Repr

/-- Persisted checkpoint `ChainState { block }`. -/
structure ChainState where
  block : Nat
  deriving DecidableEq, Repr

/-- `ChainStateUpdate { block: Option<u64> }`, the payload of
`update_chain_state`. -/
structure ChainStateUpdate where
  block : Option Nat
  deriving DecidableEq, Repr

/-- `PermitterLocator::new(chain, permitter)`. -/
structure PermitterLocator where
  chain : ChainId
  permitter : Address
  deriving DecidableEq, Repr

/-- `IdentityLocator { chain, registry, id }`. -/
structure IdentityLocator where
  chain : ChainId
  registry : Address
  id : IdentityId
  deriving DecidableEq, Repr

/-- `ShareId { identity, version }`. -/
structure ShareId where
  identity : IdentityLocator
  version : Nat
  deriving DecidableEq, Repr

/-- `SecretShare { index, share, blinding }`. -/
structure SecretShare where
  index : Nat
  share : Bytes
  blinding : Bytes
  deriving DecidableEq, Repr

/-- Payload of a `PolicyChange` event: the config is brotli-compressed
bytes. -/
structure PolicyChange where
  identity : IdentityId
  config : Bytes
  deriving DecidableEq, Repr

/-- Payload of a `SharesPosted` event: positionally aligned lists of
encrypted shares and blindings, an ephemeral public key and a nonce. -/
structure SharesPosted where
  identity : IdentityId
  pk : Bytes
  nonce : Bytes
  shares : List Bytes
  blindings : List Bytes
  deriving DecidableEq, Repr

/-- `eth::EventKind`. -/
inductive EventKind
  | policyChange (pc : PolicyChange)
  | processedBlock
  | sharesPosted (sp : SharesPosted)
  deriving DecidableEq, Repr

/-- `Event { index, kind }`. -/
structure Event where
  index : EventIndex
  kind : EventKind
  deriving DecidableEq, Repr

/-- A symmetric cipher derived per event: authenticated decryption taking a
nonce and a ciphertext, returning the plaintext on success
(`cipher.decrypt_in_place(&nonce, &[], &mut share)` with empty associated
data). -/
abbrev Cipher := Bytes → Bytes → Option Bytes

/-- Modelled from the spec: the node `Identity` (its module is outside the
given source) "holds this node's asymmetric keypair; exposes a key-agreement
operation that derives a symmetric cipher shared with a counterparty public
key" — `derive_shared_cipher(peer public key) -> symmetric cipher`. -/
structure Identity where
  deriveSharedCipher : Bytes → Cipher

/-- Brotli decompression (`brotli_decompressor::BrotliDecompress`), an
external library: abstracted as a fallible function from compressed bytes
to decompressed bytes. -/
abbrev Decompressor := Bytes → Option Bytes

/-- A durable store write issued by the consumer, recorded as intent: either
a verifier/policy update or a share put. -/
inductive StoreWrite
  | updateVerifier (locator : PermitterLocator) (identity : IdentityId)
      (config : Bytes) (index : EventIndex)
  | putShare (id : ShareId) (s : SecretShare)
  deriving DecidableEq, Repr

/-- The per-pipeline context of `sync_chain`: the chain id, the permitter's
contract address and registry address, the node identity, and the
decompressor. -/
structure SyncCtx where
  decompress : Decompressor
  chainId : ChainId
  permitterAddress : Address
  registry : Address
  ssssIdentity : Identity

/-- The `find_map` over `shares.zip(blindings).enumerate()` in the
`SharesPosted` arm: scan the zipped pairs in order from position `i`,
returning the first position whose ciphertext decrypts, together with the
plaintext and that position's blinding. -/
def firstDecrypt (dec : Bytes → Option Bytes) :
    Nat → List (Bytes × Bytes) → Option (Nat × Bytes × Bytes)
  | _, [] => none
  | i, (encShare, blinding) :: rest =>
    match dec encShare with
    | some share => some (i, share, blinding)
    | none => firstDecrypt dec (i + 1) rest

/-- One iteration of the `for_each` closure of `sync_chain`: given the
current checkpoint tracker value, dispatch on the event kind and return the
new tracker value together with the store write the event produces (if
any). -/
def handleEvent (ctx : SyncCtx) (tracker : Nat) (event : Event) :
    Nat × Option StoreWrite :=
  match event.kind with
  | .policyChange pc =>
    match ctx.decompress pc.config with
    | none => (tracker, none)
    | some config =>
      (tracker, some (.updateVerifier ⟨ctx.chainId, ctx.permitterAddress⟩
        pc.identity config event.index))
  | .processedBlock => (event.index.block, none)
  | .sharesPosted sp =>
    let cipher := ctx.ssssIdentity.deriveSharedCipher sp.pk
    match firstDecrypt (cipher sp.nonce) 0 (sp.shares.zip sp.blindings) with
    | none => (tracker, none)
    | some (i, share, blinding) =>
      (tracker, some (.putShare
        ⟨⟨ctx.chainId, ctx.registry, sp.identity⟩, 1⟩
        ⟨i, share, blinding⟩))

/-- One step of the event stream consumption: thread the tracker and append
the event's write (if any) to the accumulated write trace. -/
def syncStep (ctx : SyncCtx) (acc : Nat × List StoreWrite) (e : Event) :
    Nat × List StoreWrite :=
  let (t, w) := handleEvent ctx acc.1 e
  (t, acc.2 ++ w.toList)

/-- The consumer's drain of the (flattened, in-order) event sequence:
a left fold of `syncStep` starting from the initial tracker value and an
empty write trace. -/
def consumeEvents (ctx : SyncCtx) (tracker : Nat) (events : List Event) :
    Nat × List StoreWrite :=
  events.foldl (syncStep ctx) (tracker, [])

/-- Checkpoint recovery (`sync_chain` lines 48–51): resume from the
persisted `ChainState`'s block when present, else from the permitter's
contract-creation block. -/
def resolveStartBlock (chainState : Option ChainState) (creationBlock : Nat) :
    Nat :=
  match chainState with
  | some cs => cs.block
  | none => creationBlock

/-- The body of the retried `put_share` closure (`sync_chain` lines
135–155), applied to the boolean the store returned:
`anyhow::ensure!(put_share, "share not put"); Ok(())`. -/
def putShareAttempt (putShareResult : Bool) : Except String Unit :=
  if putShareResult then .ok () else .error "share not put"

/-- Modelled from the spec: `utils::retry` (its module is outside the given
source) "wraps a single asynchronous write operation and retries it until it
succeeds, with no upper bound on attempts".  Fuel-indexed view: the result
after at most `fuel` attempts, `none` meaning the writer is still
retrying.  `f k` is the outcome of attempt number `k`. -/
def retryUpTo {ε α : Type} (f : Nat → Except ε α) : Nat → Option α
  | 0 => none
  | n + 1 =>
    match retryUpTo f n with
    | some a => some a
    | none =>
      match f n with
      | .ok a => some a
      | .error _ => none

/-- The persister's sleep period: `Duration::from_secs(5 * 60)`. -/
def persistPeriodSecs : Nat := 5 * 60

/-- The supervisor's restart backoff: `Duration::from_millis(1000)`. -/
def restartDelayMillis : Nat := 1000

/-- Outcome of one loop-body execution: either continue with a next state
or stop the loop. -/
inductive LoopOutcome (σ : Type)
  | next (s : σ)
  | stop
  deriving DecidableEq, Repr

/-- One period of the checkpoint persister (`sync_chain` lines 58–72),
after the sleep: read the tracker, attempt `update_chain_state`; on success
the persisted checkpoint becomes the tracker's value, on failure it is only
logged and the persisted checkpoint is left unchanged. -/
def persisterPeriod (tracker : Nat) (writeOk : Bool) (persisted : Option Nat) :
    Option Nat :=
  if writeOk then some tracker else persisted

/-- The persister's loop body: it performs one period and always continues
— the `loop` has no `break` or `return`, so the task never terminates on
its own. -/
def persisterLoopBody (tracker : Nat) (writeOk : Bool)
    (persisted : Option Nat) : LoopOutcome (Option Nat) :=
  .next (persisterPeriod tracker writeOk persisted)

/-- The persisted checkpoint after a sequence of periods, each given the
tracker value read in that period and whether that period's single write
attempt succeeded. -/
def persisterRun (periods : List (Nat × Bool)) (persisted : Option Nat) :
    Option Nat :=
  periods.foldl (fun p tw => persisterPeriod tw.1 tw.2 p) persisted

/-- The observable outcome of one `sync_chain` pipeline run over a finite
event sequence: the resolved start block, the final tracker value, the
trace of durable writes issued in order, and the fact that the persister
task is aborted (`state_updater_task.abort()`, line 163) before the
function returns. -/
structure SyncOutcome where
  startBlock : Nat
  finalTracker : Nat
  writes : List StoreWrite
  persisterAborted : Bool
  deriving Repr

/-- `sync_chain` over a finite event sequence: resolve the start block from
the persisted chain state or the creation block, initialize the tracker to
it (`AtomicU64::new(start_block)`), drain the events, then abort the
persister. -/
def syncChain (ctx : SyncCtx) (chainState : Option ChainState)
    (creationBlock : Nat) (events : List Event) : SyncOutcome :=
  let startBlock := resolveStartBlock chainState creationBlock
  let (tracker, writes) := consumeEvents ctx startBlock events
  { startBlock := startBlock
    finalTracker := tracker
    writes := writes
    persisterAborted := true }

/-- What a chain's supervisor task logs after one pipeline completion
(`run` lines 29–32). -/
inductive TaskLog
  | warnUnexpectedExit (chain : ChainId)
  | errorExit (chain : ChainId)
  deriving DecidableEq, Repr

/-- One iteration of a chain task's restart loop (`run` lines 28–34): log
according to the pipeline's outcome, sleep the fixed backoff, and continue
the loop — on every outcome, including `Ok`. -/
def chainTaskIter (chain : ChainId) (outcome : Except String Unit) :
    TaskLog × Nat × LoopOutcome Unit :=
  (match outcome with
   | .ok _ => .warnUnexpectedExit chain
   | .error _ => .errorExit chain,
   restartDelayMillis, .next ())

/-- The observable behaviour of the supervisor's `run`: its return value
and the set of chains for which a task was spawned. -/
structure RunResult where
  result : Except String Unit
  spawnedChains : List ChainId
  deriving Repr

/-- `run` (lines 15–39): spawn one task per chain and return `Ok(())`
immediately. -/
def run (chains : List ChainId) : RunResult :=
  { result := .ok ()
    spawnedChains := chains }

/-- A context with inert collaborators (decompression always fails, no
ciphertext ever decrypts), used for concrete evaluations. -/
def testCtx : SyncCtx :=
  { decompress := fun _ => none
    chainId := 0
    permitterAddress := 0
    registry := 0
    ssssIdentity := ⟨fun _ _ _ => none⟩ }

/-- The cipher the `SharesPosted` handler decrypts with: the shared cipher
derived from the event's ephemeral public key, applied to the event's
nonce. -/
def eventCipher (ctx : SyncCtx) (sp : SharesPosted) : Bytes → Option Bytes :=
  ctx.ssssIdentity.deriveSharedCipher sp.pk sp.nonce

/-! ## Characterization of the ownership scan -/

theorem firstDecrypt_eq_none_iff (dec : Bytes → Option Bytes) (i : Nat)
    (l : List (Bytes × Bytes)) :
    firstDecrypt dec i l = none ↔ ∀ p ∈ l, dec p.1 = none := by
  induction l generalizing i with
  | nil => simp [firstDecrypt]
  | cons hd tl ih =>
    obtain ⟨s, bl⟩ := hd
    rw [firstDecrypt]
    cases h : dec s with
    | some pt => simp [h]
    | none => simp [h, ih]

theorem firstDecrypt_eq_some_iff (dec : Bytes → Option Bytes) (pt b : Bytes)
    (l : List (Bytes × Bytes)) (i k : Nat) :
    firstDecrypt dec i l = some (k, pt, b) ↔
      ∃ j, j < l.length ∧ k = i + j ∧
        dec (l.getD j ([], [])).1 = some pt ∧
        (l.getD j ([], [])).2 = b ∧
        ∀ m < j, dec (l.getD m ([], [])).1 = none := by
  induction l generalizing i with
  | nil => simp [firstDecrypt]
  | cons hd tl ih =>
    obtain ⟨s, bl⟩ := hd
    rw [firstDecrypt]
    cases h : dec s with
    | some pt0 =>
      constructor
      · intro heq
        have h1 : i = k ∧ pt0 = pt ∧ bl = b := by simpa using heq
        obtain ⟨rfl, rfl, rfl⟩ := h1
        exact ⟨0, by simp, by omega, by simpa using h, by simp, by omega⟩
      · rintro ⟨j, hj, hk, hdec, hbl, hprev⟩
        cases j with
        | zero =>
          simp only [List.getD_cons_zero] at hdec hbl
          rw [h] at hdec
          injection hdec with hpt
          subst hpt
          subst hbl
          simp [hk]
        | succ j' =>
          have h0 := hprev 0 (Nat.succ_pos _)
          simp only [List.getD_cons_zero] at h0
          rw [h] at h0
          exact Option.noConfusion h0
    | none =>
      rw [ih]
      constructor
      · rintro ⟨j, hj, hk, hdec, hbl, hprev⟩
        refine ⟨j + 1, by simp only [List.length_cons]; omega, by omega,
          by simpa using hdec, by simpa using hbl, ?_⟩
        intro m hm
        cases m with
        | zero => simpa using h
        | succ m' => simpa using hprev m' (by omega)
      · rintro ⟨j, hj, hk, hdec, hbl, hprev⟩
        cases j with
        | zero =>
          simp only [List.getD_cons_zero] at hdec
          rw [h] at hdec
          exact Option.noConfusion hdec
        | succ j' =>
          refine ⟨j', by simp only [List.length_cons] at hj; omega, by omega,
            by simpa using hdec, by simpa using hbl, ?_⟩
          intro m hm
          simpa using hprev (m + 1) (by omega)

theorem zip_getD_lt (s b : List Bytes) (j : Nat)
    (hj : j < min s.length b.length) :
    (s.zip b).getD j ([], []) = (s.getD j [], b.getD j []) := by
  have hjz : j < (s.zip b).length := by
    simp only [List.length_zip]
    omega
  rw [List.getD_eq_getElem _ _ hjz,
      List.getD_eq_getElem _ _ (show j < s.length by omega),
      List.getD_eq_getElem _ _ (show j < b.length by omega),
      List.getElem_zip]

theorem handleEvent_sharesPosted (ctx : SyncCtx) (t : Nat) (idx : EventIndex)
    (sp : SharesPosted) :
    handleEvent ctx t ⟨idx, .sharesPosted sp⟩ =
      (t, (firstDecrypt (eventCipher ctx sp) 0 (sp.shares.zip sp.blindings)).map
        (fun r => .putShare ⟨⟨ctx.chainId, ctx.registry, sp.identity⟩, 1⟩
          ⟨r.1, r.2.1, r.2.2⟩)) := by
  show (match firstDecrypt (eventCipher ctx sp) 0 (sp.shares.zip sp.blindings) with
    | none => (t, none)
    | some (i, share, blinding) =>
      (t, some (StoreWrite.putShare ⟨⟨ctx.chainId, ctx.registry, sp.identity⟩, 1⟩
        ⟨i, share, blinding⟩)) : Nat × Option StoreWrite) = _
  cases hfd : firstDecrypt (eventCipher ctx sp) 0 (sp.shares.zip sp.blindings) with
  | none => rfl
  | some r =>
    obtain ⟨i, share, blinding⟩ := r
    rfl

theorem forall_zip_fst_iff (dec : Bytes → Option Bytes) (s b : List Bytes) :
    (∀ p ∈ s.zip b, dec p.1 = none) ↔
      ∀ j < min s.length b.length, dec (s.getD j []) = none := by
  constructor
  · intro h j hj
    have hjz : j < (s.zip b).length := by
      simp only [List.length_zip]
      omega
    have hmem : (s.zip b).get ⟨j, hjz⟩ ∈ s.zip b := List.get_mem _ _ _
    have hx := h _ hmem
    rw [List.get_eq_getElem, List.getElem_zip] at hx
    rwa [List.getD_eq_getElem _ _ (show j < s.length by omega)]
  · intro h p hp
    obtain ⟨j, hjz, hpj⟩ := List.mem_iff_getElem.mp hp
    have hj : j < min s.length b.length := by
      simp only [List.length_zip] at hjz
      omega
    have hx := h j hj
    rw [← hpj, List.getElem_zip]
    rwa [List.getD_eq_getElem _ _ (show j < s.length by omega)] at hx

theorem firstDecrypt_zip_some_iff (dec : Bytes → Option Bytes)
    (s b : List Bytes) (i : Nat) (pt bl : Bytes) :
    firstDecrypt dec 0 (s.zip b) = some (i, pt, bl) ↔
      (i < min s.length b.length ∧ dec (s.getD i []) = some pt ∧
        bl = b.getD i [] ∧ ∀ j < i, dec (s.getD j []) = none) := by
  rw [firstDecrypt_eq_some_iff]
  constructor
  · rintro ⟨j, hj, hk, hdec, hbl, hprev⟩
    rw [List.length_zip] at hj
    have hij : i = j := by omega
    subst hij
    rw [zip_getD_lt _ _ _ hj] at hdec hbl
    refine ⟨hj, hdec, hbl.symm, ?_⟩
    intro m hm
    have hx := hprev m hm
    rwa [zip_getD_lt _ _ _ (by omega)] at hx
  · rintro ⟨hi, hdec, hbl, hprev⟩
    refine ⟨i, ?_, by omega, ?_, ?_, ?_⟩
    · rw [List.length_zip]
      omega
    · rw [zip_getD_lt _ _ _ hi]
      exact hdec
    · rw [zip_getD_lt _ _ _ hi]
      exact hbl.symm
    · intro m hm
      rw [zip_getD_lt _ _ _ (by omega)]
      exact hprev m hm

theorem handleEvent_sharesPosted_eq_some_iff (ctx : SyncCtx) (tracker : Nat)
    (idx : EventIndex) (sp : SharesPosted) (i : Nat) (share blinding : Bytes) :
    handleEvent ctx tracker ⟨idx, .sharesPosted sp⟩ =
        (tracker, some (.putShare
          ⟨⟨ctx.chainId, ctx.registry, sp.identity⟩, 1⟩
          ⟨i, share, blinding⟩)) ↔
      firstDecrypt (eventCipher ctx sp) 0 (sp.shares.zip sp.blindings) =
        some (i, share, blinding) := by
  rw [handleEvent_sharesPosted]
  cases hfd : firstDecrypt (eventCipher ctx sp) 0 (sp.shares.zip sp.blindings) with
  | none => simp
  | some r =>
    obtain ⟨i0, s0, b0⟩ := r
    simp [and_assoc]

theorem handleEvent_sharesPosted_eq_none_iff (ctx : SyncCtx) (tracker : Nat)
    (idx : EventIndex) (sp : SharesPosted) :
    handleEvent ctx tracker ⟨idx, .sharesPosted sp⟩ = (tracker, none) ↔
      firstDecrypt (eventCipher ctx sp) 0 (sp.shares.zip sp.blindings) =
        none := by
  rw [handleEvent_sharesPosted]
  cases hfd : firstDecrypt (eventCipher ctx sp) 0 (sp.shares.zip sp.blindings) with
  | none => simp
  | some r => simp

theorem handleEvent_policyChange (ctx : SyncCtx) (t : Nat) (idx : EventIndex)
    (pc : PolicyChange) :
    handleEvent ctx t ⟨idx, .policyChange pc⟩ =
      (match ctx.decompress pc.config with
        | none => (t, none)
        | some config =>
          (t, some (.updateVerifier ⟨ctx.chainId, ctx.permitterAddress⟩
            pc.identity config idx))) :=
  rfl

theorem handleEvent_fst_of_not_processedBlock (ctx : SyncCtx) (t : Nat)
    (e : Event) (h : e.kind ≠ .processedBlock) : (handleEvent ctx t e).1 = t := by
  obtain ⟨idx, kind⟩ := e
  cases kind with
  | policyChange pc =>
    rw [handleEvent_policyChange]
    cases hd : ctx.decompress pc.config <;> rfl
  | processedBlock => exact absurd rfl h
  | sharesPosted sp => rw [handleEvent_sharesPosted]

theorem syncStep_fst (ctx : SyncCtx) (acc : Nat × List StoreWrite) (e : Event)
    (h : e.kind ≠ .processedBlock) : (syncStep ctx acc e).1 = acc.1 := by
  have hfst := handleEvent_fst_of_not_processedBlock ctx acc.1 e h
  unfold syncStep
  cases hev : handleEvent ctx acc.1 e with
  | mk t w =>
    rw [hev] at hfst
    exact hfst

theorem consumeEvents_fst_no_processed (ctx : SyncCtx) :
    ∀ (events : List Event) (acc : Nat × List StoreWrite),
      (∀ e ∈ events, e.kind ≠ .processedBlock) →
      (events.foldl (syncStep ctx) acc).1 = acc.1 := by
  intro events
  induction events with
  | nil => intro acc _; rfl
  | cons e tl ih =>
    intro acc h
    rw [List.foldl_cons,
      ih (syncStep ctx acc e) (fun x hx => h x (List.mem_cons_of_mem _ hx)),
      syncStep_fst ctx acc e (h e (List.mem_cons_self _ _))]

/-! ## Theorems -/

/-- C1 counterexample: when the store reports the share was not newly
stored (`put_share` returns `false`), the handler's closure does NOT treat
this as success: it evaluates to the error `"share not put"`, and the
retrying writer is still retrying after five attempts — contradicting the
claim that processing completes normally without retries. -/
theorem C1_counterexample :
    putShareAttempt false = Except.error "share not put" ∧
    retryUpTo (fun _ => putShareAttempt false) 5 = none :=
  ⟨rfl, rfl⟩

/-- C1 (amended): when the `SharesPosted` handler's store write reports the
share was not newly stored (`put_share` returns `false`), the closure fails
with the error `"share not put"` — it succeeds exactly when `put_share`
returns `true` — so the retrying writer keeps retrying the write without
bound while `put_share` keeps returning `false`, and completes as soon as
an attempt returns `true`. -/
theorem C1_put_share_false_is_error (n : Nat) :
    (∀ b : Bool, putShareAttempt b = Except.ok () ↔ b = true) ∧
    retryUpTo (fun _ => putShareAttempt false) n = none ∧
    retryUpTo (fun _ => putShareAttempt true) (n + 1) = some () := by
  refine ⟨fun b => by cases b <;> simp [putShareAttempt], ?_, ?_⟩
  · induction n with
    | zero => rfl
    | succ m ih =>
      rw [retryUpTo, ih]
      rfl
  · induction n with
    | zero => rfl
    | succ m ih =>
      rw [retryUpTo, ih]

/-- C2 counterexample: a `ProcessedBlock` event carrying block 5 while the
tracker holds 10 drives the tracker down to 5 — the update is an
unconditional store, not a monotonic advance "regardless of the block
number carried by the event". -/
theorem C2_counterexample :
    (handleEvent testCtx 10 ⟨⟨5⟩, .processedBlock⟩).1 = 5 ∧ 5 < 10 :=
  ⟨rfl, by omega⟩

/-- C2 (amended): for every `ProcessedBlock` event dispatched by the
consumer, the in-memory checkpoint tracker is set to exactly that event's
block, unconditionally, with no store write; the update is therefore a
monotonic advance only when the event's block is at least the tracker's
current value, and the tracker decreases when the event carries a smaller
block. -/
theorem C2_tracker_set_to_event_block (ctx : SyncCtx) (tracker : Nat)
    (idx : EventIndex) :
    handleEvent ctx tracker ⟨idx, .processedBlock⟩ = (idx.block, none) :=
  rfl

/-- C4: checkpoint recovery resumes from exactly the persisted
`ChainState`'s block when the store holds one, and from exactly the event
source's contract-creation block when it holds none; the pipeline's start
block is determined by this resolution alone. -/
theorem C4_resume_block (ctx : SyncCtx) (cs : Option ChainState)
    (b creationBlock : Nat) (events : List Event) :
    (syncChain ctx cs creationBlock events).startBlock =
        resolveStartBlock cs creationBlock ∧
    resolveStartBlock (some ⟨b⟩) creationBlock = b ∧
    resolveStartBlock none creationBlock = creationBlock :=
  ⟨rfl, rfl, rfl⟩

/-- C7: once per 5-minute period the persister writes the tracker's current
value to the store; a failed write leaves the persisted checkpoint
unchanged (logged only, no retry before the next period); the persister's
loop body always continues (it never terminates on its own); and
`sync_chain` aborts the persister task when the event stream ends. -/
theorem C7_persister (tracker : Nat) (persisted : Option Nat) :
    persistPeriodSecs = 5 * 60 ∧
    persisterPeriod tracker true persisted = some tracker ∧
    persisterPeriod tracker false persisted = persisted ∧
    (∀ writeOk, persisterLoopBody tracker writeOk persisted =
      .next (persisterPeriod tracker writeOk persisted)) ∧
    (∀ ctx cs creationBlock events,
      (syncChain ctx cs creationBlock events).persisterAborted = true) :=
  ⟨rfl, rfl, rfl, fun _ => rfl, fun _ _ _ _ => rfl⟩

/-- C8: the supervisor's `run` returns `Ok(())` immediately after spawning
one task per chain, and a chain task's loop body, on either outcome of the
pipeline — success (logged as an unexpected exit) or error — waits the
fixed 1-second delay and continues the loop, relaunching the pipeline. -/
theorem C8_supervisor (chains : List ChainId) (chain : ChainId) :
    (run chains).result = .ok () ∧
    (run chains).spawnedChains = chains ∧
    restartDelayMillis = 1000 ∧
    chainTaskIter chain (.ok ()) =
      (.warnUnexpectedExit chain, restartDelayMillis, .next ()) ∧
    (∀ e, chainTaskIter chain (.error e) =
      (.errorExit chain, restartDelayMillis, .next ())) :=
  ⟨rfl, rfl, rfl, rfl, fun _ => rfl⟩

/-- C3: for every `SharesPosted` event the handler scans the positionally
zipped (ciphertext, blinding) pairs in list order and its store write is a
`putShare` with index `i`, plaintext `share` and blinding `blinding`
exactly when `i` is the first position whose ciphertext decrypts under the
cipher derived from the event's ephemeral public key (all earlier positions
fail, later positions are ignored), the decrypted plaintext is `share`, and
`blinding` is the blinding at position `i`; the persisted record's ShareId
is the identity locator `{chain, the permitter's registry, the event's
identity}` at version 1; and the event produces no write exactly when no
position decrypts. -/
theorem C3_shares_posted_first_match (ctx : SyncCtx) (tracker : Nat)
    (idx : EventIndex) (sp : SharesPosted) :
    (∀ (i : Nat) (share blinding : Bytes),
      handleEvent ctx tracker ⟨idx, .sharesPosted sp⟩ =
          (tracker, some (.putShare
            ⟨⟨ctx.chainId, ctx.registry, sp.identity⟩, 1⟩
            ⟨i, share, blinding⟩)) ↔
        (i < min sp.shares.length sp.blindings.length ∧
          eventCipher ctx sp (sp.shares.getD i []) = some share ∧
          blinding = sp.blindings.getD i [] ∧
          ∀ j < i, eventCipher ctx sp (sp.shares.getD j []) = none)) ∧
    (handleEvent ctx tracker ⟨idx, .sharesPosted sp⟩ = (tracker, none) ↔
      ∀ j < min sp.shares.length sp.blindings.length,
        eventCipher ctx sp (sp.shares.getD j []) = none) := by
  constructor
  · intro i share blinding
    rw [handleEvent_sharesPosted_eq_some_iff, firstDecrypt_zip_some_iff]
  · rw [handleEvent_sharesPosted_eq_none_iff, firstDecrypt_eq_none_iff,
      forall_zip_fst_iff]

/-- A context whose derived cipher decrypts exactly the ciphertext `[9]`
(to the plaintext `[7]`), used to witness the ownership scan. -/
def testCtxCipher : SyncCtx :=
  { decompress := fun _ => none
    chainId := 1
    permitterAddress := 2
    registry := 3
    ssssIdentity := ⟨fun _ _ ct => if ct = [9] then some [7] else none⟩ }

/-- C3 witness: with a cipher that decrypts only the ciphertext at position
1 of a three-recipient event, the handler persists exactly the version-1
record with index 1, the decrypted plaintext, and the blinding at position
1. -/
theorem C3_shares_posted_first_match_witness :
    handleEvent testCtxCipher 0
        ⟨⟨5⟩, .sharesPosted ⟨4, [], [], [[8], [9], [9]], [[1], [2], [3]]⟩⟩ =
      (0, some (.putShare ⟨⟨1, 3, 4⟩, 1⟩ ⟨1, [7], [2]⟩)) :=
  ((C3_shares_posted_first_match testCtxCipher 0 ⟨5⟩
      ⟨4, [], [], [[8], [9], [9]], [[1], [2], [3]]⟩).1 1 [7] [2]).mpr
    (by decide)

/-- C5: a `PolicyChange` event whose config fails to decompress is skipped
with no store write and without failing the pipeline: consuming the stream
with the corrupt event at its head produces exactly the tracker and write
trace of consuming the remaining events. -/
theorem C5_decompress_failure_skips (ctx : SyncCtx) (tracker : Nat)
    (idx : EventIndex) (pc : PolicyChange) (rest : List Event)
    (h : ctx.decompress pc.config = none) :
    handleEvent ctx tracker ⟨idx, .policyChange pc⟩ = (tracker, none) ∧
    consumeEvents ctx tracker (⟨idx, .policyChange pc⟩ :: rest) =
      consumeEvents ctx tracker rest := by
  have h1 : handleEvent ctx tracker ⟨idx, .policyChange pc⟩ = (tracker, none) := by
    rw [handleEvent_policyChange, h]
  refine ⟨h1, ?_⟩
  show List.foldl (syncStep ctx)
    (syncStep ctx (tracker, []) ⟨idx, .policyChange pc⟩) rest = _
  have h2 : syncStep ctx (tracker, []) ⟨idx, .policyChange pc⟩ = (tracker, []) := by
    unfold syncStep
    rw [h1]
    rfl
  rw [h2]
  rfl

/-- C5 witness: a concrete corrupt `PolicyChange` event (under a
decompressor that always fails) is skipped and the rest of the stream is
consumed as if it were absent. -/
theorem C5_decompress_failure_skips_witness :
    handleEvent testCtx 7 ⟨⟨3⟩, .policyChange ⟨9, [1, 2]⟩⟩ = (7, none) ∧
    consumeEvents testCtx 7
        [⟨⟨3⟩, .policyChange ⟨9, [1, 2]⟩⟩, ⟨⟨4⟩, .processedBlock⟩] =
      consumeEvents testCtx 7 [⟨⟨4⟩, .processedBlock⟩] :=
  C5_decompress_failure_skips testCtx 7 ⟨3⟩ ⟨9, [1, 2]⟩
    [⟨⟨4⟩, .processedBlock⟩] rfl

/-- C6: a `PolicyChange` event whose config decompresses successfully
produces, for the retrying store writer, a verifier update carrying exactly
the `PermitterLocator` built from the pipeline's chain id and the
permitter's contract address, the event's identity, the decompressed config
bytes, and the event's index. -/
theorem C6_policy_update_write (ctx : SyncCtx) (tracker : Nat)
    (idx : EventIndex) (pc : PolicyChange) (config : Bytes)
    (h : ctx.decompress pc.config = some config) :
    handleEvent ctx tracker ⟨idx, .policyChange pc⟩ =
      (tracker, some (.updateVerifier ⟨ctx.chainId, ctx.permitterAddress⟩
        pc.identity config idx)) := by
  rw [handleEvent_policyChange, h]

/-- A context whose decompressor succeeds with the identity function, used
to witness the `PolicyChange` success path. -/
def testCtxId : SyncCtx :=
  { decompress := fun bs => some bs
    chainId := 5
    permitterAddress := 6
    registry := 7
    ssssIdentity := ⟨fun _ _ _ => none⟩ }

/-- C6 witness: a concrete `PolicyChange` event under a succeeding
decompressor yields exactly the expected verifier update. -/
theorem C6_policy_update_write_witness :
    handleEvent testCtxId 2 ⟨⟨8⟩, .policyChange ⟨9, [4, 2]⟩⟩ =
      (2, some (.updateVerifier ⟨5, 6⟩ 9 [4, 2] ⟨8⟩)) :=
  C6_policy_update_write testCtxId 2 ⟨8⟩ ⟨9, [4, 2]⟩ [4, 2] rfl

/-- C9: the ownership scan of a `SharesPosted` event examines only
positions up to the length of the shorter of the shares and blindings
lists — the handler's result is unchanged if both lists are truncated to
that length — and an event with an empty shares or blindings list is always
skipped with no store write. -/
theorem C9_mismatched_lengths (ctx : SyncCtx) (tracker : Nat)
    (idx : EventIndex) (sp : SharesPosted) :
    handleEvent ctx tracker ⟨idx, .sharesPosted sp⟩ =
      handleEvent ctx tracker ⟨idx, .sharesPosted
        { sp with
          shares := sp.shares.take (min sp.shares.length sp.blindings.length)
          blindings :=
            sp.blindings.take (min sp.shares.length sp.blindings.length) }⟩ ∧
    ((sp.shares = [] ∨ sp.blindings = []) →
      handleEvent ctx tracker ⟨idx, .sharesPosted sp⟩ = (tracker, none)) := by
  constructor
  · rw [handleEvent_sharesPosted, handleEvent_sharesPosted]
    simp only [eventCipher]
    rw [← List.zip_eq_zip_take_min]
  · intro h
    rw [handleEvent_sharesPosted]
    have hz : sp.shares.zip sp.blindings = [] := by
      cases h with
      | inl h => simp [h]
      | inr h => simp [h]
    rw [hz]
    rfl

/-- C9 witness: a concrete `SharesPosted` event whose shares list is empty
(while its blindings list is not) is skipped with no store write. -/
theorem C9_mismatched_lengths_witness :
    handleEvent testCtx 3 ⟨⟨1⟩, .sharesPosted ⟨7, [], [], [], [[1]]⟩⟩ =
      (3, none) :=
  (C9_mismatched_lengths testCtx 3 ⟨1⟩ ⟨7, [], [], [], [[1]]⟩).2 (Or.inl rfl)

/-- C10: the checkpoint tracker is initialized to the resolved resume
block, and as long as no `ProcessedBlock` event has been dispatched its
value still equals that resume block; hence a successful persister flush in
that window writes back exactly the block the pipeline resumed from. -/
theorem C10_tracker_equals_resume_block (ctx : SyncCtx)
    (cs : Option ChainState) (creationBlock : Nat) (events : List Event)
    (persisted : Option Nat)
    (h : ∀ e ∈ events, e.kind ≠ .processedBlock) :
    (consumeEvents ctx (resolveStartBlock cs creationBlock) events).1 =
      resolveStartBlock cs creationBlock ∧
    persisterPeriod
        (consumeEvents ctx (resolveStartBlock cs creationBlock) events).1
        true persisted = some (resolveStartBlock cs creationBlock) := by
  have hc := consumeEvents_fst_no_processed ctx events
    (resolveStartBlock cs creationBlock, []) h
  refine ⟨hc, ?_⟩
  show persisterPeriod
    (List.foldl (syncStep ctx) (resolveStartBlock cs creationBlock, []) events).1
    true persisted = _
  rw [hc]
  rfl

/-- C10 witness: on a concrete stream holding one `PolicyChange` event and
no `ProcessedBlock` event, starting with no persisted chain state and
creation block 42, the tracker still reads 42 and a flush persists 42. -/
theorem C10_tracker_equals_resume_block_witness :
    (consumeEvents testCtx (resolveStartBlock none 42)
        [⟨⟨50⟩, .policyChange ⟨1, [2]⟩⟩]).1 = resolveStartBlock none 42 ∧
    persisterPeriod
        (consumeEvents testCtx (resolveStartBlock none 42)
          [⟨⟨50⟩, .policyChange ⟨1, [2]⟩⟩]).1
        true none = some (resolveStartBlock none 42) :=
  C10_tracker_equals_resume_block testCtx none 42
    [⟨⟨50⟩, .policyChange ⟨1, [2]⟩⟩] none (by decide)

end Escrin
